import Mathlib

/-!
Verification of the content pipeline in `scripts/generate.py` of the
pravni-novinky-ai repository.

The script has the shape: collect RSS entries (dedup by link, lookback-window
filter), classify each item 1-5 with an LLM call, generate an article and
three LinkedIn posts for items rated >= 3, render markdown to HTML, and
account token usage into a cost estimate.

The LLM transport is an external collaborator: every function that in Python
performs a `client.chat.completions.create(...)` call is embedded here as a
function of the reply text (`resp.choices[0].message.content`, an optional
string), which is exactly the part of the behaviour the script owns.

Python strings are embedded as Lean `String`/`List Char`; the handful of
regular expressions used by the script (`[1-5]`, `\n?---\n?`, `\n\s*\n`,
the markdown-link pattern and `[^a-z0-9]+`) are each embedded as a dedicated
scanner that follows the leftmost/greedy semantics of `re` for that concrete
pattern.  Machine integers are `Int`/`Nat` (Python ints are unbounded, so no
modular reduction is needed); the cost arithmetic is embedded over `ℚ`
(the concrete claim instance was additionally checked to hold bit-exactly
in binary64).
-/

namespace PravniNovinky

/-! ## Python string primitives -/

/-- ASCII whitespace recognised by `str.strip()` / regex `\s`
(space, tab, LF, CR, VT, FF). -/
def isPySpace (c : Char) : Bool :=
  c = ' ' || c = '\t' || c = '\n' || c = '\x0d' || c = '\x0b' || c = '\x0c'

/-- Embedding of Python `str.strip()` on the underlying character list:
drop leading and trailing whitespace. -/
def listStrip (l : List Char) : List Char :=
  ((l.dropWhile isPySpace).reverse.dropWhile isPySpace).reverse

/-- Embedding of Python `str.strip()`. -/
def pyStrip (s : String) : String :=
  String.mk (listStrip s.data)

/-- Embedding of Python `str.splitlines()` (covering the terminators
`\r\n`, `\r`, `\n` that occur in LLM text). -/
def pySplitlinesAux : List Char → List Char → List (List Char)
  | [], acc => if acc.isEmpty then [] else [acc.reverse]
  | '\x0d' :: '\n' :: rest, acc => acc.reverse :: pySplitlinesAux rest []
  | '\x0d' :: rest, acc => acc.reverse :: pySplitlinesAux rest []
  | '\n' :: rest, acc => acc.reverse :: pySplitlinesAux rest []
  | c :: rest, acc => pySplitlinesAux rest (c :: acc)

/-- Embedding of Python `str.splitlines()`. -/
def pySplitlines (l : List Char) : List (List Char) :=
  pySplitlinesAux l []

/-- Embedding of `" ".join(parts)` on character lists. -/
def spaceJoin : List (List Char) → List Char
  | [] => []
  | [p] => p
  | p :: rest => p ++ ' ' :: spaceJoin rest

/-- Substring containment (`pat` occurs contiguously in `s`), the meaning of
the Python expressions of the form `pat in s` that the spec talks about. -/
def containsSub (s pat : String) : Prop :=
  pat.data <:+: s.data

instance (s pat : String) : Decidable (containsSub s pat) :=
  List.decidableInfix pat.data s.data

/-! ## Usage accounting (`add_usage`, source lines 50-61)

`add_usage` reads `resp.usage` inside a `try`/`except` and does

    TOK_IN  += int(getattr(u, "prompt_tokens", getattr(u, "input_tokens", 0)) or 0)
    TOK_OUT += int(getattr(u, "completion_tokens", getattr(u, "output_tokens", 0)) or 0)

A Python attribute value is embedded as `PyVal`: an int, `None`, or a value
on which `int(...)` raises (e.g. a non-numeric string), tagged with its
truthiness.  An absent attribute is `Option.none` around the `PyVal`. -/

/-- A Python value as seen by `add_usage`: an integer, `None`, or a value on
which `int(...)` raises (carrying its truthiness, e.g. `"n/a"` is truthy
while `""` is falsy). -/
inductive PyVal where
  | vint (n : Int)
  | vnone
  | vbad (truthy : Bool)
deriving DecidableEq, Repr

/-- Python truthiness of a `PyVal` (`0` and `None` are falsy). -/
def PyVal.isTruthy : PyVal → Bool
  | .vint n => n != 0
  | .vnone => false
  | .vbad t => t

/-- Embedding of `x or 0`. -/
def pyOrZero (v : PyVal) : PyVal :=
  if v.isTruthy then v else .vint 0

/-- Embedding of `int(x)`: `none` models a raised exception. -/
def pyToInt : PyVal → Option Int
  | .vint n => some n
  | .vnone => none
  | .vbad _ => none

/-- The `usage` object of a model response; each field is `none` when the
attribute is absent (so that `getattr` falls back to its default). -/
structure Usage where
  prompt_tokens : Option PyVal
  input_tokens : Option PyVal
  completion_tokens : Option PyVal
  output_tokens : Option PyVal
deriving DecidableEq, Repr

/-- Embedding of `getattr(u, "prompt_tokens", getattr(u, "input_tokens", 0))`. -/
def Usage.extractIn (u : Usage) : PyVal :=
  u.prompt_tokens.getD (u.input_tokens.getD (.vint 0))

/-- Embedding of `getattr(u, "completion_tokens", getattr(u, "output_tokens", 0))`. -/
def Usage.extractOut (u : Usage) : PyVal :=
  u.completion_tokens.getD (u.output_tokens.getD (.vint 0))

/-- The global counters `TOK_IN` / `TOK_OUT`. -/
structure Counters where
  tokIn : Int
  tokOut : Int
deriving DecidableEq, Repr

/-- Embedding of `add_usage(resp)` as a state transformer on the counters.
`resp = none` models `resp.usage` raising (missing usage record); the whole
body runs under `try`/`except Exception: pass`, so an exception raised by
either `int(...)` aborts the remaining updates but keeps the ones already
executed. -/
def add_usage (st : Counters) (resp : Option Usage) : Counters :=
  match resp with
  | none => st
  | some u =>
    match pyToInt (pyOrZero u.extractIn) with
    | none => st
    | some din =>
      let st1 : Counters := { st with tokIn := st.tokIn + din }
      match pyToInt (pyOrZero u.extractOut) with
      | none => st1
      | some dout => { st1 with tokOut := st1.tokOut + dout }

/-! ## Publish dates (`parse_pubdate`, source lines 72-80) -/

/-- A `time.struct_time`-style tuple as exposed by feedparser
(`published_parsed` / `updated_parsed`). -/
structure TimeTuple where
  tm_year : Int
  tm_mon : Int
  tm_mday : Int
  tm_hour : Int
  tm_min : Int
  tm_sec : Int
deriving DecidableEq, Repr

/-- Gregorian leap year, as used by `datetime`. -/
def isLeapYear (y : Int) : Bool :=
  (y % 4 = 0 && y % 100 != 0) || y % 400 = 0

/-- Days in a month, as validated by `datetime`. -/
def daysInMonth (y m : Int) : Int :=
  if m = 1 || m = 3 || m = 5 || m = 7 || m = 8 || m = 10 || m = 12 then 31
  else if m = 4 || m = 6 || m = 9 || m = 11 then 30
  else if isLeapYear y then 29 else 28

/-- The range checks performed by the `datetime(...)` constructor; a tuple
failing them makes the constructor raise, which `parse_pubdate` turns into
`None`. -/
def validTuple (t : TimeTuple) : Bool :=
  1 ≤ t.tm_year && t.tm_year ≤ 9999 &&
  1 ≤ t.tm_mon && t.tm_mon ≤ 12 &&
  1 ≤ t.tm_mday && t.tm_mday ≤ daysInMonth t.tm_year t.tm_mon &&
  0 ≤ t.tm_hour && t.tm_hour ≤ 23 &&
  0 ≤ t.tm_min && t.tm_min ≤ 59 &&
  0 ≤ t.tm_sec && t.tm_sec ≤ 59

/-- Chronological strict order on two UTC datetimes: with equal time zones,
`datetime` comparison is lexicographic on the components. -/
def dtLt (a b : TimeTuple) : Bool :=
  if a.tm_year ≠ b.tm_year then a.tm_year < b.tm_year
  else if a.tm_mon ≠ b.tm_mon then a.tm_mon < b.tm_mon
  else if a.tm_mday ≠ b.tm_mday then a.tm_mday < b.tm_mday
  else if a.tm_hour ≠ b.tm_hour then a.tm_hour < b.tm_hour
  else if a.tm_min ≠ b.tm_min then a.tm_min < b.tm_min
  else a.tm_sec < b.tm_sec

/-- A raw feed entry as consumed by `main` and `parse_pubdate`: every field
access is a `getattr` with a default, so each field is optional.  A field
that is present but `None` is also embedded as `none` (both are falsy and
take the same fallback branch). -/
structure Entry where
  link : Option String
  title : Option String
  summary : Option String
  description : Option String
  published_parsed : Option TimeTuple
  updated_parsed : Option TimeTuple

/-- Embedding of `parse_pubdate(entry)`: take `published_parsed` or
`updated_parsed`, return `None` when absent or when the `datetime`
constructor raises on the tuple. -/
def parse_pubdate (e : Entry) : Option TimeTuple :=
  match e.published_parsed.orElse (fun _ => e.updated_parsed) with
  | none => none
  | some t => if validTuple t then some t else none

/-! ## Slugs (`slugify`, source lines 82-93) -/

/-- Char-wise embedding of Python `str.lower()` over the alphabets relevant
to `slugify` (ASCII letters plus the uppercase forms of the accented letters
appearing in the `replace_map` of the source). -/
def pyLowerChar (c : Char) : Char :=
  if 'A' ≤ c && c ≤ 'Z' then Char.ofNat (c.toNat + 32)
  else if c = 'Á' then 'á' else if c = 'Č' then 'č' else if c = 'Ď' then 'ď'
  else if c = 'É' then 'é' else if c = 'Ě' then 'ě' else if c = 'Í' then 'í'
  else if c = 'Ň' then 'ň' else if c = 'Ó' then 'ó' else if c = 'Ř' then 'ř'
  else if c = 'Š' then 'š' else if c = 'Ť' then 'ť' else if c = 'Ú' then 'ú'
  else if c = 'Ů' then 'ů' else if c = 'Ý' then 'ý' else if c = 'Ž' then 'ž'
  else if c = 'Ä' then 'ä' else if c = 'Ö' then 'ö' else if c = 'Ü' then 'ü'
  else c

/-- The `replace_map` translation table of `slugify`. -/
def translateChar (c : Char) : Char :=
  if c = 'á' then 'a' else if c = 'č' then 'c' else if c = 'ď' then 'd'
  else if c = 'é' then 'e' else if c = 'ě' then 'e' else if c = 'í' then 'i'
  else if c = 'ň' then 'n' else if c = 'ó' then 'o' else if c = 'ř' then 'r'
  else if c = 'š' then 's' else if c = 'ť' then 't' else if c = 'ú' then 'u'
  else if c = 'ů' then 'u' else if c = 'ý' then 'y' else if c = 'ž' then 'z'
  else if c = 'ä' then 'a' else if c = 'ö' then 'o' else if c = 'ü' then 'u'
  else c

/-- Character class `[a-z0-9]` of the `slugify` regex. -/
def isSlugKeep (c : Char) : Bool :=
  ('a' ≤ c && c ≤ 'z') || ('0' ≤ c && c ≤ '9')

/-- Embedding of `re.sub(r'[^a-z0-9]+', '-', text)`: each maximal run of
characters outside `[a-z0-9]` is replaced by a single dash.  The flag
records whether the previous character belonged to such a run. -/
def slugSubGo : Bool → List Char → List Char
  | _, [] => []
  | inRun, c :: rest =>
    if isSlugKeep c then c :: slugSubGo false rest
    else if inRun then slugSubGo true rest
    else '-' :: slugSubGo true rest

/-- Embedding of `.strip('-')`. -/
def stripDashes (l : List Char) : List Char :=
  ((l.dropWhile (· = '-')).reverse.dropWhile (· = '-')).reverse

/-- Embedding of `slugify(text)`: lowercase, strip diacritics via the
translation table, collapse non-`[a-z0-9]` runs to dashes, strip dashes,
and fall back to `"clanek"` for an empty result. -/
def slugify (text : String) : String :=
  let l := (text.data.map pyLowerChar).map translateChar
  let r := stripDashes (slugSubGo false l)
  if r.isEmpty then "clanek" else String.mk r

/-- The detail-page path of a promoted item, from `main`:
`slug = slugify(title)[:60]; fn = POSTS_DIR / f"{slug}.html"`.  The index
entry's `href` is `"posts/" + fn.name`, the same string. -/
def postFilename (title : String) : String :=
  "posts/" ++ String.mk ((slugify title).data.take 60) ++ ".html"

/-- The sequence of `filepath.write_text(content)` calls of step 5b, as a
map from path to final file content: a later write to the same path
overwrites an earlier one. -/
def applyWrites (writes : List (String × String)) (path : String) : Option String :=
  writes.foldl (fun acc w => if w.1 = path then some w.2 else acc) none

/-! ## HTML escaping and the markdown renderer (source lines 95-123) -/

/-- Embedding of `html.escape(s, quote=True)` on one character. -/
def escChar (c : Char) : List Char :=
  if c = '&' then "&amp;".data
  else if c = '<' then "&lt;".data
  else if c = '>' then "&gt;".data
  else if c = '"' then "&quot;".data
  else if c = '\x27' then "&#x27;".data
  else [c]

/-- Embedding of `escape_html(s) = html.escape(s, quote=True)`. -/
def escape_html (s : String) : String :=
  String.mk (s.data.foldr (fun c acc => escChar c ++ acc) [])

/-- Recognise `http://` or `https://` at the head of the list (the greedy
`https?://` of the link regex), returning the protocol characters and the
remainder. -/
def matchHttp (l : List Char) : Option (List Char × List Char) :=
  if "https://".data.isPrefixOf l then some ("https://".data, l.drop 8)
  else if "http://".data.isPrefixOf l then some ("http://".data, l.drop 7)
  else none

/-- Try to match the link regex `\[([^\]]+)\]\((https?://[^\s)]+)\)` at the
head of the list; on success return the text capture, the url capture and
the remainder after the match.  Both character classes exclude their own
closing delimiter, so the greedy `re` match is deterministic. -/
def matchMdLink (l : List Char) : Option (List Char × List Char × List Char) :=
  match l with
  | '[' :: t =>
    let txt := t.takeWhile (fun c => c ≠ ']')
    if txt.isEmpty then none
    else
      match t.drop txt.length with
      | ']' :: '(' :: r2 =>
        match matchHttp r2 with
        | some (proto, r3) =>
          let run := r3.takeWhile (fun c => !isPySpace c && c ≠ ')')
          if run.isEmpty then none
          else
            match r3.drop run.length with
            | ')' :: r5 => some (txt, proto ++ run, r5)
            | _ => none
        | none => none
      | _ => none
  | _ => none

/-- The replacement template of `md_links_to_html`:
`<a href="URL" target="_blank" rel="noopener">TEXT</a>`.  Note that the
captures are substituted verbatim (a bare `\1`/`\2` in `re.sub`), without
HTML escaping. -/
def anchorOf (txt url : List Char) : List Char :=
  "<a href=\"".data ++ url ++ "\" target=\"_blank\" rel=\"noopener\">".data
    ++ txt ++ "</a>".data

/-- Left-to-right, non-overlapping substitution pass of
`md_links_to_html`.  `fuel` bounds the recursion (each step consumes at
least one character, so `fuel = l.length` suffices). -/
def subLinksAux : Nat → List Char → List Char
  | 0, l => l
  | _ + 1, [] => []
  | fuel + 1, c :: rest =>
    match matchMdLink (c :: rest) with
    | some (txt, url, r) => anchorOf txt url ++ subLinksAux fuel r
    | none => c :: subLinksAux fuel rest

/-- Embedding of `md_links_to_html(text)`. -/
def md_links_to_html (text : String) : String :=
  String.mk (subLinksAux text.data.length text.data)

/-- Inside the leading whitespace run of `l`, find the last newline and
return the remainder after it.  This is the greedy continuation of the
paragraph-break regex `\n\s*\n` after its first `\n` has been consumed. -/
def afterLastNlInRun : List Char → Option (List Char)
  | [] => none
  | c :: rest =>
    if isPySpace c then
      match afterLastNlInRun rest with
      | some r => some r
      | none => if c = '\n' then some rest else none
    else none

/-- Try to match the paragraph-break regex `\n\s*\n` at the head of the
list; on success return the remainder after the (greedy, leftmost) match. -/
def matchParaBreak : List Char → Option (List Char)
  | '\n' :: t => afterLastNlInRun t
  | _ => none

/-- Generic splitter for `re.split` with a pattern matcher `m`: scan left to
right, at each position emit a piece when `m` matches (continuing after the
matched text), otherwise advance one character.  `fuel` bounds the
recursion; every step consumes at least one character. -/
def reSplitAux (m : List Char → Option (List Char)) :
    Nat → List Char → List Char → List (List Char)
  | 0, l, acc => [acc.reverse ++ l]
  | _ + 1, [], acc => [acc.reverse]
  | fuel + 1, c :: rest, acc =>
    match m (c :: rest) with
    | some r => acc.reverse :: reSplitAux m fuel r []
    | none => reSplitAux m fuel rest (c :: acc)

/-- Embedding of `re.split(r"\n\s*\n", txt)`. -/
def splitParas (l : List Char) : List (List Char) :=
  reSplitAux matchParaBreak (l.length + 1) l []

/-- Render one paragraph of `md_to_html`: a `## `/`### ` marker becomes an
`<h2>`/`<h3>` with the heading text stripped and HTML-escaped, any other
paragraph is wrapped in `<p>` verbatim (the source deliberately trusts the
LLM text for paragraph bodies). -/
def renderPara (p : List Char) : String :=
  if "## ".data.isPrefixOf p then
    "<h2>" ++ escape_html (String.mk (listStrip (p.drop 3))) ++ "</h2>"
  else if "### ".data.isPrefixOf p then
    "<h3>" ++ escape_html (String.mk (listStrip (p.drop 4))) ++ "</h3>"
  else
    "<p>" ++ String.mk p ++ "</p>"

/-- The block sequence produced by `md_to_html(txt)` before the final
`"\n  ".join`: convert markdown links, split the stripped text into
paragraphs on blank lines, strip each, drop empties, render each. -/
def md_to_html_parts (txt : String) : List String :=
  let txt2 := md_links_to_html txt
  let parts := ((splitParas (pyStrip txt2).data).map listStrip).filter
    (fun p => !p.isEmpty)
  parts.map renderPara

/-- Embedding of `md_to_html(txt)`: the rendered blocks joined with
`"\n  "`. -/
def md_to_html (txt : String) : String :=
  String.intercalate "\n  " (md_to_html_parts txt)

/-! ## Relevance classifier (`llm_classify_relevance`, source lines 126-156)

The function builds a rubric prompt, performs one chat completion at
temperature 0 and parses the reply:

    text = (resp.choices[0].message.content or "").strip()
    try:
        n = int(re.findall(r"[1-5]", text)[0])
        return n
    except Exception:
        return 2

The embedding takes the reply content (an optional string, `None` when the
API returns no content) and performs the same parse. -/

/-- First character in `1`-`5` anywhere in the list, as a digit value:
`re.findall(r"[1-5]", text)[0]` (with `none` for the `IndexError` case). -/
def findDigit15 : List Char → Option Nat
  | [] => none
  | c :: rest =>
    if '1' ≤ c && c ≤ '5' then some (c.toNat - '0'.toNat)
    else findDigit15 rest

/-- Embedding of the reply parse of `llm_classify_relevance`. -/
def llm_classify_relevance (content : Option String) : Nat :=
  let text := pyStrip (content.getD "")
  match findDigit15 text.data with
  | some n => n
  | none => 2

/-! ## Content generator (`llm_generate_article`, source lines 158-190)

After the single chat completion the function returns

    (resp.choices[0].message.content or "").strip()

i.e. the raw reply stripped of surrounding whitespace; there is no
post-processing of links or headings (the prompt merely asks for them). -/

/-- The fixed advisory URL that the prompt asks the model to include. -/
def advisoryUrl : String := "https://www.springwalk.cz/pravni-poradenstvi/"

/-- Embedding of the output of `llm_generate_article` as a function of the
reply content. -/
def llm_generate_article (content : Option String) : String :=
  pyStrip (content.getD "")

/-- Number of heading blocks (`## ` or `### ` paragraphs) in a markdown
text, counted the way `md_to_html` recognises them. -/
def headingCount (txt : String) : Nat :=
  (((splitParas (pyStrip txt).data).map listStrip).filter
    (fun p => "## ".data.isPrefixOf p || "### ".data.isPrefixOf p)).length

/-! ## Short-form generator (`llm_generate_linkedin_posts`, lines 192-247)

    raw = (resp.choices[0].message.content or "").strip()
    blocks = [b.strip() for b in re.split(r'\n?---\n?', raw) if b.strip()]
    posts = []
    for b in blocks:
        lines = [ln.strip() for ln in b.splitlines() if ln.strip()]
        if not lines: continue
        heading = lines[0]
        body = " ".join(lines[1:]) if len(lines) > 1 else ""
        posts.append(f"<strong>{escape_html(heading)}</strong> {escape_html(body)}")
    if len(posts) >= 3: return posts[:3]
    if posts: return posts + [""] * (3 - len(posts))
    return ["", "", ""]
-/

/-- Consume one leading newline if present (the trailing `\n?` of the
delimiter regex). -/
def dropOneNl : List Char → List Char
  | '\n' :: r => r
  | r => r

/-- Try to match the delimiter regex `\n?---\n?` at the head of the list
(greedy: a leading newline is consumed when `---` follows it); on success
return the remainder after the match. -/
def matchDashDelim : List Char → Option (List Char)
  | '\n' :: '-' :: '-' :: '-' :: rest => some (dropOneNl rest)
  | '-' :: '-' :: '-' :: rest => some (dropOneNl rest)
  | _ => none

/-- Embedding of `re.split(r'\n?---\n?', raw)`. -/
def splitDashes (l : List Char) : List (List Char) :=
  reSplitAux matchDashDelim (l.length + 1) l []

/-- One iteration of the block loop: `none` models the `continue` for a
block with no non-empty line. -/
def mkPost (b : List Char) : Option String :=
  let lines := ((pySplitlines b).map listStrip).filter (fun ln => !ln.isEmpty)
  match lines with
  | [] => none
  | h :: t =>
    some ("<strong>" ++ escape_html (String.mk h) ++ "</strong> "
      ++ escape_html (String.mk (spaceJoin t)))

/-- The parsed, stripped, non-empty delimiter blocks of the raw reply. -/
def parseBlocks (raw : String) : List (List Char) :=
  ((splitDashes raw.data).map listStrip).filter (fun b => !b.isEmpty)

/-- Embedding of `llm_generate_linkedin_posts` as a function of the reply
content: parse the blocks, then pad or truncate to exactly three entries. -/
def llm_generate_linkedin_posts (content : Option String) : List String :=
  let raw := pyStrip (content.getD "")
  let posts := (parseBlocks raw).filterMap mkPost
  if posts.length ≥ 3 then posts.take 3
  else if !posts.isEmpty then posts ++ List.replicate (3 - posts.length) ""
  else ["", "", ""]

/-! ## Cost accounting (source lines 494-499)

    cost_usd = (input_tokens * (INPUT_PRICE_PER_MTOK / 1_000_000.0)) + \
               (output_tokens * (OUTPUT_PRICE_PER_MTOK / 1_000_000.0))
    cost_czk = cost_usd * USD_TO_CZK

embedded over exact rationals (the configured prices are per million
tokens). -/

/-- Embedding of the `cost_usd` formula. -/
def cost_usd (inputTokens outputTokens : Int) (inPrice outPrice : ℚ) : ℚ :=
  inputTokens * (inPrice / 1000000) + outputTokens * (outPrice / 1000000)

/-- Embedding of the `cost_czk` formula. -/
def cost_czk (inputTokens outputTokens : Int) (inPrice outPrice rate : ℚ) : ℚ :=
  cost_usd inputTokens outputTokens inPrice outPrice * rate

/-! ## The pipeline driver (`main`, source lines 414-492) -/

/-- One collected item, as the dict built in step 1 of `main`. -/
structure Item where
  title : String
  summary : String
  link : String
  source : String
  pub : Option TimeTuple
deriving DecidableEq

/-- The dedup/window state of step 1: the `seen_links` set (kept as a list,
queried by membership) and the `collected` list. -/
structure CollectState where
  seen : List String
  collected : List Item

/-- Embedding of `getattr(e, "summary", "") or getattr(e, "description", "") or ""`. -/
def entrySummary (e : Entry) : String :=
  if e.summary.getD "" ≠ "" then e.summary.getD ""
  else e.description.getD ""

/-- Embedding of `pub_dt and pub_dt < cutoff` — the age test of the window filter. -/
def pubTooOld (cutoff : TimeTuple) (e : Entry) : Bool :=
  match parse_pubdate e with
  | some d => dtLt d cutoff
  | none => false

/-- The item dict appended to `collected`. -/
def mkItem (src : String) (e : Entry) (link : String) : Item :=
  { title := pyStrip (e.title.getD "")
    summary := entrySummary e
    link := link
    source := src
    pub := parse_pubdate e }

/-- One iteration of the entry loop of step 1: drop on empty or
already-seen link, drop on a known publish date older than the cutoff,
drop on an empty (stripped) title; otherwise record the link as seen and
append the item. -/
def collectStep (cutoff : TimeTuple) (src : String) (st : CollectState)
    (e : Entry) : CollectState :=
  if e.link.getD "" = "" ∨ e.link.getD "" ∈ st.seen then st
  else if pubTooOld cutoff e then st
  else if pyStrip (e.title.getD "") = "" then st
  else ⟨st.seen ++ [e.link.getD ""],
        st.collected ++ [mkItem src e (e.link.getD "")]⟩

/-- Step 1 over one feed (a source name and its entry list, in feed
order). -/
def collectFeed (cutoff : TimeTuple) (st : CollectState)
    (feed : String × List Entry) : CollectState :=
  feed.2.foldl (collectStep cutoff feed.1) st

/-- Step 1 over all configured feeds, starting from an empty seen-set. -/
def collectAll (cutoff : TimeTuple) (feeds : List (String × List Entry)) :
    CollectState :=
  feeds.foldl (collectFeed cutoff) ⟨[], []⟩

/-- An item together with the rating assigned in step 2. -/
structure ScoredItem where
  item : Item
  rating : Nat
deriving DecidableEq

/-- Step 2: classify every collected item.  `replyOf` is the scoring
capability (the reply content of the classification call for the item). -/
def rateAll (replyOf : Item → Option String) (collected : List Item) :
    List ScoredItem :=
  collected.map (fun i => ⟨i, llm_classify_relevance (replyOf i)⟩)

/-- Step 2: the `selected` list — items appended exactly when
`rating >= 3`. -/
def selectPromoted (replyOf : Item → Option String) (collected : List Item) :
    List ScoredItem :=
  (rateAll replyOf collected).filter (fun s => 3 ≤ s.rating)

/-- One entry of the render queue of step 3. -/
structure RenderEntry where
  filepath : String
  title : String
  article_html : String
  posts : List String
  rating : Nat
  link : String
deriving DecidableEq

/-- Step 3: build the render queue from the selected items.  `genArticle`
and `genPosts` are the generation capability (reply contents of the two
generation calls per item). -/
def buildRenderQueue (genArticle genPosts : Item → Option String)
    (sel : List ScoredItem) : List RenderEntry :=
  sel.map (fun s =>
    { filepath := postFilename s.item.title
      title := s.item.title
      article_html := md_to_html (llm_generate_article (genArticle s.item))
      posts := llm_generate_linkedin_posts (genPosts s.item)
      rating := s.rating
      link := s.item.link })

/-! ## Derived characterisations used in the theorems below -/

/-- What one `add_usage` call contributes to `TOK_IN`: zero for a missing
usage record or an unconvertible input count, otherwise the extracted
count. -/
def inContrib (resp : Option Usage) : Int :=
  match resp with
  | none => 0
  | some u => (pyToInt (pyOrZero u.extractIn)).getD 0

/-- What one `add_usage` call contributes to `TOK_OUT`: zero when the call
bails out before the second update (missing record or unconvertible input
count) and zero for an unconvertible output count. -/
def outContrib (resp : Option Usage) : Int :=
  match resp with
  | none => 0
  | some u =>
    match pyToInt (pyOrZero u.extractIn) with
    | none => 0
    | some _ => (pyToInt (pyOrZero u.extractOut)).getD 0

/-- The alphabet `[a-z0-9-]` of slugs. -/
def isSlugChar (c : Char) : Bool :=
  isSlugKeep c || c = '-'

/-- The dedup invariant of step 1: collected items have pairwise-distinct
links, each recorded in `seen_links`. -/
def DedupInv (st : CollectState) : Prop :=
  (st.collected.map Item.link).Nodup ∧
    ∀ l ∈ st.collected.map Item.link, l ∈ st.seen

/-! ## Helper lemmas -/

theorem findDigit15_range {l : List Char} {d : Nat}
    (h : findDigit15 l = some d) : 1 ≤ d ∧ d ≤ 5 := by
  induction l with
  | nil => simp [findDigit15] at h
  | cons c rest ih =>
    rw [findDigit15] at h
    split at h
    · rename_i hc
      obtain ⟨h1, h2⟩ := Bool.and_eq_true_iff.mp hc
      have a1 : '1'.val.toNat ≤ c.val.toNat := by
        simpa [Char.le_def, UInt32.le_def, BitVec.le_def] using
          (of_decide_eq_true h1)
      have a2 : c.val.toNat ≤ '5'.val.toNat := by
        simpa [Char.le_def, UInt32.le_def, BitVec.le_def] using
          (of_decide_eq_true h2)
      have e1 : '1'.val.toNat = 49 := by decide
      have e5 : '5'.val.toNat = 53 := by decide
      have e0 : '0'.val.toNat = 48 := by decide
      have hd : c.toNat - '0'.toNat = d := Option.some.inj h
      unfold Char.toNat at hd
      omega
    · exact ih h

theorem infix_dropWhile_iff (p : Char → Bool) (pat l : List Char)
    (hne : pat ≠ []) (hns : ∀ c ∈ pat, p c = false) :
    pat <:+: l.dropWhile p ↔ pat <:+: l := by
  constructor
  · intro h
    exact h.trans (List.dropWhile_suffix p).isInfix
  · rintro ⟨s, t, rfl⟩
    rw [List.append_assoc, List.dropWhile_append]
    split
    · cases pat with
      | nil => exact absurd rfl hne
      | cons c rest =>
        rw [List.cons_append, List.dropWhile_cons_of_neg
          (by simp [hns c (List.mem_cons_self c rest)])]
        exact ⟨[], t, by simp⟩
    · exact ⟨s.dropWhile p, t, by simp⟩

theorem infix_listStrip_iff (pat l : List Char)
    (hne : pat ≠ []) (hns : ∀ c ∈ pat, isPySpace c = false) :
    pat <:+: listStrip l ↔ pat <:+: l := by
  have hner : pat.reverse ≠ [] := by simpa using hne
  have hnsr : ∀ c ∈ pat.reverse, isPySpace c = false := by
    intro c hc; exact hns c (List.mem_reverse.mp hc)
  unfold listStrip
  calc pat <:+: ((l.dropWhile isPySpace).reverse.dropWhile isPySpace).reverse
      ↔ pat.reverse <:+: (l.dropWhile isPySpace).reverse.dropWhile isPySpace := by
        rw [← List.reverse_infix, List.reverse_reverse]
    _ ↔ pat.reverse <:+: (l.dropWhile isPySpace).reverse :=
        infix_dropWhile_iff _ _ _ hner hnsr
    _ ↔ pat <:+: l.dropWhile isPySpace := List.reverse_infix
    _ ↔ pat <:+: l := infix_dropWhile_iff _ _ _ hne hns

theorem foldl_preserves {σ α : Type} (P : σ → Prop) (f : σ → α → σ)
    (h : ∀ s a, P s → P (f s a)) :
    ∀ (l : List α) (s : σ), P s → P (l.foldl f s) := by
  intro l
  induction l with
  | nil => intro s hs; simpa using hs
  | cons a rest ih =>
    intro s hs
    rw [List.foldl_cons]
    exact ih (f s a) (h s a hs)

theorem collectStep_preserves (cutoff : TimeTuple) (src : String)
    (st : CollectState) (e : Entry) (h : DedupInv st) :
    DedupInv (collectStep cutoff src st e) := by
  unfold collectStep
  split
  · exact h
  · split
    · exact h
    · split
      · exact h
      · rename_i h1 _ _
        obtain ⟨hnd, hsub⟩ := h
        have hlink : e.link.getD "" ∉ st.seen := fun hm => h1 (Or.inr hm)
        constructor
        · rw [List.map_append]
          rw [List.nodup_append]
          refine ⟨hnd, List.nodup_singleton _, ?_⟩
          intro x hx hx2
          have : x = e.link.getD "" := by
            simpa [mkItem] using hx2
          exact hlink (this ▸ hsub x hx)
        · intro x hx
          rw [List.map_append] at hx
          rcases List.mem_append.mp hx with hx | hx
          · exact List.mem_append.mpr (Or.inl (hsub x hx))
          · have : x = e.link.getD "" := by simpa [mkItem] using hx
            exact List.mem_append.mpr (Or.inr (by simp [this]))

theorem collectAll_dedupInv (cutoff : TimeTuple)
    (feeds : List (String × List Entry)) : DedupInv (collectAll cutoff feeds) := by
  unfold collectAll
  refine foldl_preserves DedupInv _ ?_ feeds ⟨[], []⟩ ?_
  · intro st feed hst
    unfold collectFeed
    exact foldl_preserves DedupInv _
      (fun s a hs => collectStep_preserves cutoff feed.1 s a hs) feed.2 st hst
  · exact ⟨List.nodup_nil, by simp⟩

/-! ## Claim theorems -/

/-- C1, counterexample: for the empty raw reply the Content Generator
returns the empty string, which contains neither a link to the fixed
advisory URL nor any markdown heading — the claimed link/structure
post-processing does not exist in `llm_generate_article`. -/
theorem article_policy_counterexample :
    llm_generate_article (some "") = "" ∧
    ¬ containsSub (llm_generate_article (some "")) advisoryUrl ∧
    headingCount (llm_generate_article (some "")) = 0 := by
  refine ⟨rfl, ?_, by decide⟩
  intro h
  exact absurd h (by decide)

/-- C1, amended: `llm_generate_article` returns the raw generated text with
surrounding whitespace stripped and applies no post-processing, so its
output contains the advisory URL exactly when the raw reply does, and a
missing or empty reply yields the empty article with zero headings. -/
theorem article_no_postprocessing :
    ∀ content : Option String,
      (containsSub (llm_generate_article content) advisoryUrl ↔
        containsSub (content.getD "") advisoryUrl) ∧
      llm_generate_article none = "" ∧
      headingCount (llm_generate_article none) = 0 := by
  intro content
  refine ⟨?_, rfl, by decide⟩
  show advisoryUrl.data <:+: (pyStrip (content.getD "")).data ↔ _
  have : (pyStrip (content.getD "")).data = listStrip (content.getD "").data := rfl
  rw [this]
  exact infix_listStrip_iff advisoryUrl.data (content.getD "").data
    (by decide) (by decide)

/-- C2: the Relevance Classifier returns the first digit 1-5 found in the
(stripped) reply; the result is always in `[1,5]`; when the reply contains
no such digit it is exactly `2`, strictly below the promotion threshold 3;
in particular the replies `"n/a"` and a missing reply yield `2`. -/
theorem classifier_range_and_default :
    ∀ content : Option String,
      (1 ≤ llm_classify_relevance content ∧ llm_classify_relevance content ≤ 5) ∧
      (∀ d, findDigit15 (pyStrip (content.getD "")).data = some d →
        llm_classify_relevance content = d) ∧
      (findDigit15 (pyStrip (content.getD "")).data = none →
        llm_classify_relevance content = 2 ∧ llm_classify_relevance content < 3) ∧
      llm_classify_relevance (some "n/a") = 2 ∧
      llm_classify_relevance none = 2 := by
  intro content
  refine ⟨?_, ?_, ?_, by decide, rfl⟩
  · unfold llm_classify_relevance
    rcases h : findDigit15 (pyStrip (content.getD "")).data with _ | d
    · simp [h]
    · simpa [h] using findDigit15_range h
  · intro d h
    simp [llm_classify_relevance, h]
  · intro h
    simp [llm_classify_relevance, h]

/-- C2 witness: the theorem applied at the digit-free reply `"n/a"`. -/
theorem classifier_range_and_default_witness :
    llm_classify_relevance (some "n/a") = 2 ∧
    llm_classify_relevance (some "n/a") < 3 :=
  (classifier_range_and_default (some "n/a")).2.2.1 (by decide)

/-- C7: the cost estimate from the final usage counters is
`usd = input_tokens * (input_price / 1M) + output_tokens * (output_price / 1M)`
and `czk = usd * rate`; it is linear in the token counts, and at
`input_tokens = output_tokens = 1_000_000` with the default per-million
prices `0.15` and `0.60` the USD cost is exactly `0.75`.  (The rational
model is exact; the same value is produced bit-exactly by the binary64
evaluation in Python.) -/
theorem cost_estimate_exact :
    cost_usd 1000000 1000000 (15/100) (60/100) = 3/4 ∧
    (∀ i1 i2 o1 o2 p q, cost_usd (i1 + i2) (o1 + o2) p q =
      cost_usd i1 o1 p q + cost_usd i2 o2 p q) ∧
    (∀ i o p q r, cost_czk i o p q r = cost_usd i o p q * r) ∧
    (∀ i o p q, cost_usd i o p q = ((i : ℚ) * p + (o : ℚ) * q) / 1000000) := by
  refine ⟨by norm_num [cost_usd], ?_, fun i o p q r => rfl, ?_⟩
  · intro i1 i2 o1 o2 p q
    unfold cost_usd
    push_cast
    ring
  · intro i o p q
    unfold cost_usd
    ring

/-- C3, counterexample: for an empty raw reply the Short-Form Generator
returns three *empty strings*, not entries carrying the fixed label text as
heading — the first entry does not contain the first fixed label
`Společnost Spring Walk`. -/
theorem linkedin_fill_counterexample :
    llm_generate_linkedin_posts (some "") = ["", "", ""] ∧
    ¬ containsSub "" "Společnost Spring Walk" := by
  refine ⟨by decide, ?_⟩
  intro h
  exact absurd h (by decide)

/-- C3, amended: the Short-Form Generator always returns exactly 3 entries:
the raw reply is split on `---` delimiters (adjacent newlines optional and
consumed), within each block the first non-empty stripped line becomes the
heading and the remaining non-empty stripped lines joined with single
spaces the body; when fewer than 3 parsable blocks are present each missing
trailing position is filled with an *empty string* (no label text). -/
theorem linkedin_exactly_three_pad_empty :
    ∀ content : Option String,
      llm_generate_linkedin_posts content =
        ((parseBlocks (pyStrip (content.getD ""))).filterMap mkPost).take 3 ++
          List.replicate
            (3 - min 3 ((parseBlocks (pyStrip (content.getD ""))).filterMap mkPost).length)
            "" ∧
      (llm_generate_linkedin_posts content).length = 3 := by
  intro content
  have pad3 : ∀ posts : List String,
      (if posts.length ≥ 3 then posts.take 3
       else if !posts.isEmpty then posts ++ List.replicate (3 - posts.length) ""
       else ["", "", ""]) =
        posts.take 3 ++ List.replicate (3 - min 3 posts.length) "" := by
    intro posts
    match posts with
    | [] => rfl
    | [a] => rfl
    | [a, b] => rfl
    | a :: b :: c :: rest =>
      have h3 : (a :: b :: c :: rest).length ≥ 3 := by
        simp [List.length_cons]
      rw [if_pos h3, Nat.min_eq_left h3]
      simp
  have e : llm_generate_linkedin_posts content =
      ((parseBlocks (pyStrip (content.getD ""))).filterMap mkPost).take 3 ++
        List.replicate
          (3 - min 3 ((parseBlocks (pyStrip (content.getD ""))).filterMap mkPost).length)
          "" :=
    pad3 _
  refine ⟨e, ?_⟩
  rw [e]
  simp only [List.length_append, List.length_take, List.length_replicate]
  omega

/-- C8, counterexample: the usage accountant adds the extracted counts
verbatim, so a response whose usage carries a negative
`prompt_tokens` makes `TOK_IN` decrease below zero; and a usage record
whose `completion_tokens` is unconvertible (after a convertible
`prompt_tokens`) is malformed yet does *not* leave both counters
unchanged: the input count is still added. -/
theorem usage_counters_counterexample :
    (add_usage ⟨0, 0⟩ (some ⟨some (.vint (-5)), none, some (.vint 7), none⟩)).tokIn
        = -5 ∧
    (add_usage ⟨0, 0⟩ (some ⟨some (.vint (-5)), none, some (.vint 7), none⟩)).tokIn
        < 0 ∧
    add_usage ⟨0, 0⟩ (some ⟨some (.vint 5), none, some (.vbad true), none⟩)
        = ⟨5, 0⟩ ∧
    add_usage ⟨0, 0⟩ (some ⟨some (.vint 5), none, some (.vbad true), none⟩)
        ≠ ⟨0, 0⟩ := by
  refine ⟨rfl, by decide, rfl, by decide⟩

/-- C8, amended: `add_usage` is a total function (the Python body never
throws); each call adds `inContrib`/`outContrib` — the counts extracted
under either field name, contributing zero for a missing usage record or an
unconvertible input count (an unconvertible *output* count still lets the
already-executed input update stand); the counters never decrease provided
the extracted contributions are nonnegative, as they are for genuine token
counts. -/
theorem usage_accounting_characterised :
    ∀ (st : Counters) (resp : Option Usage),
      (add_usage st resp).tokIn = st.tokIn + inContrib resp ∧
      (add_usage st resp).tokOut = st.tokOut + outContrib resp ∧
      add_usage st none = st ∧
      (0 ≤ inContrib resp → st.tokIn ≤ (add_usage st resp).tokIn) ∧
      (0 ≤ outContrib resp → st.tokOut ≤ (add_usage st resp).tokOut) := by
  intro st resp
  have hIn : (add_usage st resp).tokIn = st.tokIn + inContrib resp := by
    rcases resp with _ | u
    · simp [add_usage, inContrib]
    · unfold add_usage inContrib
      rcases h1 : pyToInt (pyOrZero u.extractIn) with _ | din
      · simp [h1]
      · rcases h2 : pyToInt (pyOrZero u.extractOut) with _ | dout <;> simp [h1, h2]
  have hOut : (add_usage st resp).tokOut = st.tokOut + outContrib resp := by
    rcases resp with _ | u
    · simp [add_usage, outContrib]
    · unfold add_usage outContrib
      rcases h1 : pyToInt (pyOrZero u.extractIn) with _ | din
      · simp [h1]
      · rcases h2 : pyToInt (pyOrZero u.extractOut) with _ | dout <;> simp [h1, h2]
  refine ⟨hIn, hOut, rfl, ?_, ?_⟩
  · intro h; rw [hIn]; omega
  · intro h; rw [hOut]; omega

/-- C8 witness: the amended theorem applied to a well-formed response with
`prompt_tokens = 5`, `completion_tokens = 7` from counters `(0, 0)`. -/
theorem usage_accounting_characterised_witness :
    (0 : Int) ≤ (add_usage ⟨0, 0⟩
      (some ⟨some (.vint 5), none, some (.vint 7), none⟩)).tokIn ∧
    (0 : Int) ≤ (add_usage ⟨0, 0⟩
      (some ⟨some (.vint 5), none, some (.vint 7), none⟩)).tokOut :=
  ⟨Int.le_trans (by decide)
      ((usage_accounting_characterised ⟨0, 0⟩
        (some ⟨some (.vint 5), none, some (.vint 7), none⟩)).2.2.2.1 (by decide)),
   Int.le_trans (by decide)
      ((usage_accounting_characterised ⟨0, 0⟩
        (some ⟨some (.vint 5), none, some (.vint 7), none⟩)).2.2.2.2 (by decide))⟩

/-- C4, counterexample: when the first occurrence of a link is itself
dropped (here: empty title), its link is *not* recorded in `seen_links`,
so a later entry with the same link survives — contradicting `every later
entry with the same link is dropped, regardless of what its other fields
contain`.  The surviving item is the one with title `"T"`, i.e. the second
entry. -/
theorem dedup_first_occurrence_counterexample :
    ((collectAll ⟨2024, 1, 1, 0, 0, 0⟩
        [("f", [⟨some "L", some "", none, none, none, none⟩,
                ⟨some "L", some "T", none, none, none, none⟩])]).collected.map
      Item.link) = ["L"] ∧
    ((collectAll ⟨2024, 1, 1, 0, 0, 0⟩
        [("f", [⟨some "L", some "", none, none, none, none⟩,
                ⟨some "L", some "T", none, none, none, none⟩])]).collected.map
      Item.title) = ["T"] := by
  refine ⟨rfl, rfl⟩

/-- C4, amended: the links of the collected items are pairwise distinct —
at most one entry per link value survives, namely the first occurrence that
passes the age and title filters while no prior occurrence had been kept;
an entry whose link is already recorded in `seen_links` never changes the
state.  (Links of entries dropped by the age or title filters are not
recorded, so a later entry with such a link can still survive.) -/
theorem dedup_kept_links_nodup :
    ∀ (cutoff : TimeTuple) (feeds : List (String × List Entry)),
      ((collectAll cutoff feeds).collected.map Item.link).Nodup ∧
      (∀ (st : CollectState) (src : String) (e : Entry),
        e.link.getD "" ∈ st.seen → collectStep cutoff src st e = st) := by
  intro cutoff feeds
  refine ⟨(collectAll_dedupInv cutoff feeds).1, ?_⟩
  intro st src e hm
  unfold collectStep
  rw [if_pos (Or.inr hm)]

/-- C4 witness: an entry whose link `"L"` is already seen leaves the state
unchanged. -/
theorem dedup_kept_links_nodup_witness :
    collectStep ⟨2024, 1, 1, 0, 0, 0⟩ "s" ⟨["L"], []⟩
      ⟨some "L", some "T", none, none, none, none⟩ = ⟨["L"], []⟩ :=
  (dedup_kept_links_nodup ⟨2024, 1, 1, 0, 0, 0⟩ []).2 ⟨["L"], []⟩ "s"
    ⟨some "L", some "T", none, none, none, none⟩ (by decide)

/-- C5: the window filter drops every entry whose parsed publish date is
strictly older than the cutoff (`now - lookback_days`); an entry with no
parseable publish date is never dropped for age (`pubTooOld` is false) and,
when it passes the link and title checks, is always kept; a present but
invalid time tuple fails to parse and is treated as `no publish date`. -/
theorem window_filter_policy :
    ∀ (cutoff : TimeTuple) (src : String) (st : CollectState) (e : Entry),
      (∀ d, parse_pubdate e = some d → dtLt d cutoff = true →
        collectStep cutoff src st e = st) ∧
      (parse_pubdate e = none → pubTooOld cutoff e = false) ∧
      (parse_pubdate e = none →
        ¬(e.link.getD "" = "" ∨ e.link.getD "" ∈ st.seen) →
        pyStrip (e.title.getD "") ≠ "" →
        (collectStep cutoff src st e).collected
          = st.collected ++ [mkItem src e (e.link.getD "")]) ∧
      (∀ t, e.published_parsed.orElse (fun _ => e.updated_parsed) = some t →
        validTuple t = false → parse_pubdate e = none) := by
  intro cutoff src st e
  refine ⟨?_, ?_, ?_, ?_⟩
  · intro d hd hlt
    unfold collectStep
    by_cases hL : e.link.getD "" = "" ∨ e.link.getD "" ∈ st.seen
    · rw [if_pos hL]
    · rw [if_neg hL, if_pos (by simp [pubTooOld, hd, hlt])]
  · intro h
    simp [pubTooOld, h]
  · intro h hL hT
    unfold collectStep
    rw [if_neg hL, if_neg (by simp [pubTooOld, h]), if_neg hT]
  · intro t ht hv
    unfold parse_pubdate
    rw [ht]
    simp [hv]

/-- C5 witness: the theorem applied to an entry published in 2020 (dropped
against a 2024 cutoff) and to an entry with no publish date (kept). -/
theorem window_filter_policy_witness :
    collectStep ⟨2024, 1, 1, 0, 0, 0⟩ "s" ⟨[], []⟩
        ⟨some "L", some "T", none, none, some ⟨2020, 1, 1, 0, 0, 0⟩, none⟩
      = ⟨[], []⟩ ∧
    (collectStep ⟨2024, 1, 1, 0, 0, 0⟩ "s" ⟨[], []⟩
        ⟨some "M", some "T", none, none, none, none⟩).collected
      = [] ++ [mkItem "s" ⟨some "M", some "T", none, none, none, none⟩ "M"] :=
  ⟨(window_filter_policy ⟨2024, 1, 1, 0, 0, 0⟩ "s" ⟨[], []⟩
      ⟨some "L", some "T", none, none, some ⟨2020, 1, 1, 0, 0, 0⟩, none⟩).1
      ⟨2020, 1, 1, 0, 0, 0⟩ (by decide) (by decide),
   (window_filter_policy ⟨2024, 1, 1, 0, 0, 0⟩ "s" ⟨[], []⟩
      ⟨some "M", some "T", none, none, none, none⟩).2.2.1
      (by decide) (by decide) (by decide)⟩

/-- C6: promotion is exactly the predicate `rating >= 3`: a scored item is
in `selected` iff it was rated and its rating is at least 3; every entry of
the render queue (the items reaching the Content and Short-Form Generators)
carries a rating of at least 3; and for five items whose classification
replies are the digits 1-5, exactly the last three are promoted. -/
theorem promotion_threshold :
    ∀ (replyOf : Item → Option String) (collected : List Item)
      (genArticle genPosts : Item → Option String),
      (∀ s : ScoredItem, s ∈ selectPromoted replyOf collected ↔
        s ∈ rateAll replyOf collected ∧ 3 ≤ s.rating) ∧
      (∀ q ∈ buildRenderQueue genArticle genPosts (selectPromoted replyOf collected),
        3 ≤ q.rating) ∧
      selectPromoted (fun i => some i.title)
          [⟨"1", "", "l1", "s", none⟩, ⟨"2", "", "l2", "s", none⟩,
           ⟨"3", "", "l3", "s", none⟩, ⟨"4", "", "l4", "s", none⟩,
           ⟨"5", "", "l5", "s", none⟩] =
        [⟨⟨"3", "", "l3", "s", none⟩, 3⟩, ⟨⟨"4", "", "l4", "s", none⟩, 4⟩,
         ⟨⟨"5", "", "l5", "s", none⟩, 5⟩] := by
  intro replyOf collected genArticle genPosts
  refine ⟨?_, ?_, by decide⟩
  · intro s
    unfold selectPromoted
    rw [List.mem_filter]
    simp
  · intro q hq
    unfold buildRenderQueue at hq
    obtain ⟨s, hs, rfl⟩ := List.mem_map.mp hq
    have h3 := List.of_mem_filter hs
    simpa using h3

/-- C6 witness: the single item rated `"3"` is promoted and reaches the
render queue with rating 3 ≥ 3. -/
theorem promotion_threshold_witness :
    3 ≤ (RenderEntry.mk "posts/3.html" "3" "" ["", "", ""] 3 "l3").rating :=
  (promotion_threshold (fun i => some i.title) [⟨"3", "", "l3", "s", none⟩]
      (fun _ => none) (fun _ => none)).2.1
    (RenderEntry.mk "posts/3.html" "3" "" ["", "", ""] 3 "l3") (by decide)

set_option maxRecDepth 8192 in
/-- C9, counterexample: the link text capture `a<b` is substituted into the
anchor verbatim — `<` is not converted to `&lt;` — contradicting `extracted
link captures are HTML-escaped`. -/
theorem renderer_escape_counterexample :
    md_to_html_parts "## Title\n\n[a<b](https://x)" =
      ["<h2>Title</h2>",
       "<p><a href=\"https://x\" target=\"_blank\" rel=\"noopener\">a<b</a></p>"] ∧
    ¬ containsSub (md_to_html "## Title\n\n[a<b](https://x)") "&lt;" := by
  refine ⟨rfl, ?_⟩
  intro h
  exact absurd h (by decide)

/-- C9, amended: the concrete round-trip holds — one `## Title` heading and
one paragraph with one `[text](https://x)` link render to the block
sequence `[heading, paragraph-with-anchor]`; heading text is HTML-escaped,
but link captures are embedded verbatim (unescaped), as are paragraph
bodies. -/
theorem renderer_roundtrip_amended :
    md_to_html_parts "## Title\n\n[text](https://x)" =
      ["<h2>Title</h2>",
       "<p><a href=\"https://x\" target=\"_blank\" rel=\"noopener\">text</a></p>"] ∧
    md_to_html_parts "## a<b\n\nx" = ["<h2>a&lt;b</h2>", "<p>x</p>"] ∧
    md_to_html_parts "a<b" = ["<p>a<b</p>"] :=
  ⟨rfl, rfl, rfl⟩

theorem slugSubGo_chars : ∀ (flag : Bool) (l : List Char) (c : Char),
    c ∈ slugSubGo flag l → isSlugChar c = true := by
  intro flag l
  induction l generalizing flag with
  | nil => intro c hc; simp [slugSubGo] at hc
  | cons a rest ih =>
    intro c hc
    rw [slugSubGo] at hc
    by_cases ha : isSlugKeep a
    · rw [if_pos ha] at hc
      rcases List.mem_cons.mp hc with rfl | hc
      · simp [isSlugChar, ha]
      · exact ih false c hc
    · rw [if_neg ha] at hc
      by_cases hf : flag = true
      · rw [if_pos hf] at hc
        exact ih true c hc
      · rw [if_neg hf] at hc
        rcases List.mem_cons.mp hc with rfl | hc
        · simp [isSlugChar]
        · exact ih true c hc

theorem mem_stripDashes {c : Char} {l : List Char}
    (h : c ∈ stripDashes l) : c ∈ l := by
  unfold stripDashes at h
  rw [List.mem_reverse] at h
  have h2 := (List.dropWhile_suffix (fun x => x = '-')).sublist.mem h
  rw [List.mem_reverse] at h2
  exact (List.dropWhile_suffix (fun x => x = '-')).sublist.mem h2

theorem slugify_chars : ∀ (t : String), ∀ c ∈ (slugify t).data,
    isSlugChar c = true := by
  intro t c hc
  simp only [slugify] at hc
  split at hc
  · have hall : ∀ x ∈ "clanek".data, isSlugChar x = true := by decide
    exact hall c hc
  · exact slugSubGo_chars false _ c (mem_stripDashes hc)

/-- C10: `slugify` always returns a non-empty string over the lowercase
alphabet `[a-z0-9-]` (falling back to the placeholder `clanek`); every
render-queue entry's file path is `posts/` + the title's slug truncated to
60 characters + `.html` (also the string used as the index `href`); and two
titles with the same truncated slug yield the same path, so the later
item's write overwrites the earlier item's page. -/
theorem slug_filename_collision_overwrite :
    ∀ (t1 t2 c1 c2 : String) (genArticle genPosts : Item → Option String)
      (sel : List ScoredItem),
      (slugify t1).data ≠ [] ∧
      (∀ c ∈ (slugify t1).data, isSlugChar c = true) ∧
      (∀ q ∈ buildRenderQueue genArticle genPosts sel,
        q.filepath = postFilename q.title) ∧
      ((slugify t1).data.take 60 = (slugify t2).data.take 60 →
        postFilename t1 = postFilename t2 ∧
        applyWrites [(postFilename t1, c1), (postFilename t2, c2)]
          (postFilename t1) = some c2) := by
  intro t1 t2 c1 c2 genArticle genPosts sel
  refine ⟨?_, slugify_chars t1, ?_, ?_⟩
  · simp only [slugify]
    split
    · decide
    · rename_i hne
      intro hd
      exact hne (by simpa [List.isEmpty_iff] using hd)
  · intro q hq
    obtain ⟨s, hs, rfl⟩ := List.mem_map.mp hq
    rfl
  · intro h
    have hpf : postFilename t1 = postFilename t2 := by
      unfold postFilename
      rw [h]
    refine ⟨hpf, ?_⟩
    rw [hpf]
    simp [applyWrites]

/-- C10 witness: a render-queue entry for the title `"T"` carries the path
`postFilename "T"`, and the 61-`a` title collides with the
60-`a`-plus-`b` title after truncation: the second write wins. -/
theorem slug_filename_collision_overwrite_witness :
    (RenderEntry.mk "posts/t.html" "T" "" ["", "", ""] 3 "L").filepath
        = postFilename "T" ∧
    postFilename (String.mk (List.replicate 61 'a'))
        = postFilename (String.mk (List.replicate 60 'a' ++ ['b'])) ∧
    applyWrites
        [(postFilename (String.mk (List.replicate 61 'a')), "A"),
         (postFilename (String.mk (List.replicate 60 'a' ++ ['b'])), "B")]
        (postFilename (String.mk (List.replicate 61 'a'))) = some "B" := by
  refine ⟨?_, ?_, ?_⟩
  · exact (slug_filename_collision_overwrite "T" "T" "A" "B"
      (fun _ => none) (fun _ => none)
      [⟨⟨"T", "", "L", "s", none⟩, 3⟩]).2.2.1
      (RenderEntry.mk "posts/t.html" "T" "" ["", "", ""] 3 "L") (by decide)
  · exact ((slug_filename_collision_overwrite
      (String.mk (List.replicate 61 'a'))
      (String.mk (List.replicate 60 'a' ++ ['b'])) "A" "B"
      (fun _ => none) (fun _ => none) []).2.2.2 (by decide)).1
  · exact ((slug_filename_collision_overwrite
      (String.mk (List.replicate 61 'a'))
      (String.mk (List.replicate 60 'a' ++ ['b'])) "A" "B"
      (fun _ => none) (fun _ => none) []).2.2.2 (by decide)).2

end PravniNovinky
